import Mathlib

set_option maxHeartbeats 1000000

namespace JsMachine

/- Shallow embedding of the roadrunner js-machine plugin (plugin.go, the rpc
file, bindings.go).  Go channels and `select` are modelled explicitly: a
buffered channel is a list plus a capacity, and a `select` statement is a
function of the runtime-chosen case; the function returns `none` when the
chosen case is not ready (a Go select never commits to a non-ready case, and
when several cases are ready the runtime picks one of them arbitrarily). -/

/-- State of the plugin relevant to pool management: the buffered channel
`vmPool` of available interpreter handles (identified by numbers, in FIFO
order), its buffer capacity `vmPoolSize`, and whether the shutdown channel
`stopCh` has been closed (`close(p.stopCh)` in `Stop`). -/
structure PoolState where
  vmPool : List Nat
  vmPoolSize : Nat
  stopClosed : Bool
deriving DecidableEq, Repr

/-- The three cases of the `select` statement in `Plugin.acquireVM`:
receive from `p.vmPool`, `ctx.Done()`, and `p.stopCh`. -/
inductive AcquireCase where
  | pool
  | ctxDone
  | stop
deriving DecidableEq, Repr

/-- Result of `Plugin.acquireVM`: a handle, the context error, or the
`plugin is shutting down` error. -/
inductive AcquireResult where
  | ok (vm : Nat)
  | ctxErr
  | shuttingDown
deriving DecidableEq, Repr

/-- Shallow embedding of `Plugin.acquireVM` (plugin.go lines 157 to 166).
`c` is the select case committed to by the Go runtime; the result is `none`
when that case is not ready (receive from a non-empty buffered channel is
ready; a closed `stopCh` is always ready; a done context is ready). -/
def acquireVM (s : PoolState) (ctxDone : Bool) (c : AcquireCase) :
    Option (AcquireResult × PoolState) :=
  match c with
  | .pool =>
    match s.vmPool with
    | v :: rest => some (.ok v, { s with vmPool := rest })
    | [] => none
  | .ctxDone => if ctxDone then some (.ctxErr, s) else none
  | .stop => if s.stopClosed then some (.shuttingDown, s) else none

/-- The two cases of the `select` statement in `Plugin.releaseVM`:
send on `p.vmPool` and receive from `p.stopCh`. -/
inductive ReleaseCase where
  | send
  | stop
deriving DecidableEq, Repr

/-- Shallow embedding of `Plugin.releaseVM` (plugin.go lines 169 to 175).
The send case is ready when the buffered channel has a free slot; the stop
case is ready when `stopCh` has been closed (and then the handle is simply
dropped).  `none` means the chosen case is not ready. -/
def releaseVM (s : PoolState) (vm : Nat) (c : ReleaseCase) : Option PoolState :=
  match c with
  | .send =>
    if s.vmPool.length < s.vmPoolSize then
      some { s with vmPool := s.vmPool ++ [vm] }
    else none
  | .stop => if s.stopClosed then some s else none

/-- C2 counterexample: a state in which the shutdown signal has been set but
a handle is still buffered in the pool channel admits a select resolution of
`acquireVM` that returns the handle, contradicting the claim that no
acquisition attempt started after shutdown ever obtains a handle. -/
theorem acquire_after_shutdown_can_return_handle :
    (PoolState.mk [0] 1 true).stopClosed = true ∧
    acquireVM (PoolState.mk [0] 1 true) false AcquireCase.pool =
      some (AcquireResult.ok 0, PoolState.mk [] 1 true) := by
  constructor
  · rfl
  · rfl

/-- C2 (amended): after the shutdown signal has been set, an acquisition
attempt never blocks (the stop case is always ready and yields the
shutting-down error), and when the pool buffer is empty and the context of
the caller is not done, every ready select case yields the shutting-down
error, so the acquisition is guaranteed to fail. -/
theorem acquire_after_shutdown_fails_when_pool_empty
    (s : PoolState) (c : AcquireCase)
    (hstop : s.stopClosed = true) (hempty : s.vmPool = []) :
    acquireVM s false AcquireCase.stop = some (AcquireResult.shuttingDown, s) ∧
    (acquireVM s false c = none ∨
      acquireVM s false c = some (AcquireResult.shuttingDown, s)) := by
  constructor
  · simp [acquireVM, hstop]
  · cases c with
    | pool => left; simp [acquireVM, hempty]
    | ctxDone => left; simp [acquireVM]
    | stop => right; simp [acquireVM, hstop]

/-- C2 witness: the amended theorem evaluated at a concrete drained,
shut-down pool state. -/
theorem acquire_after_shutdown_fails_when_pool_empty_witness :
    acquireVM (PoolState.mk [] 2 true) false AcquireCase.stop =
      some (AcquireResult.shuttingDown, PoolState.mk [] 2 true) ∧
    (acquireVM (PoolState.mk [] 2 true) false AcquireCase.pool = none ∨
      acquireVM (PoolState.mk [] 2 true) false AcquireCase.pool =
        some (AcquireResult.shuttingDown, PoolState.mk [] 2 true)) :=
  acquire_after_shutdown_fails_when_pool_empty
    (PoolState.mk [] 2 true) AcquireCase.pool rfl rfl

/-- C3 counterexample: after the shutdown signal has been set, when the pool
buffer has a free slot both select cases of `releaseVM` are ready, and the
resolution that commits to the send case re-queues the handle into the
available set, contradicting the claim that release never adds a handle back
after shutdown. -/
theorem release_after_shutdown_can_requeue_handle :
    (PoolState.mk [] 2 true).stopClosed = true ∧
    releaseVM (PoolState.mk [] 2 true) 7 ReleaseCase.send =
      some (PoolState.mk [7] 2 true) := by
  constructor
  · rfl
  · rfl

/-- C3 (amended): once shutdown has begun, `releaseVM` never blocks (the
stop case is always ready and discards the handle, leaving the pool
unchanged); every ready resolution either discards the handle or, when a
buffer slot is free and the runtime commits to the send case, re-queues it;
the discard is guaranteed only when the pool buffer is full. -/
theorem release_after_shutdown_discard_guarantees
    (s : PoolState) (vm : Nat) (c : ReleaseCase)
    (hstop : s.stopClosed = true) :
    releaseVM s vm ReleaseCase.stop = some s ∧
    (∀ s2, releaseVM s vm c = some s2 →
      s2 = s ∨ s2.vmPool = s.vmPool ++ [vm]) ∧
    (s.vmPoolSize ≤ s.vmPool.length →
      ∀ s2, releaseVM s vm c = some s2 → s2 = s) := by
  refine ⟨by simp [releaseVM, hstop], ?_, ?_⟩
  · intro s2 h
    cases c with
    | send =>
      simp only [releaseVM] at h
      split at h
      · right
        cases h
        rfl
      · exact absurd h (by simp)
    | stop =>
      left
      simp [releaseVM, hstop] at h
      exact h.symm
  · intro hfull s2 h
    cases c with
    | send =>
      simp only [releaseVM] at h
      split at h
      · omega
      · exact absurd h (by simp)
    | stop =>
      simp [releaseVM, hstop] at h
      exact h.symm

/-- C3 witness: the amended theorem evaluated at a concrete shut-down state. -/
theorem release_after_shutdown_discard_guarantees_witness :
    releaseVM (PoolState.mk [] 2 true) 7 ReleaseCase.stop =
      some (PoolState.mk [] 2 true) ∧
    (∀ s2, releaseVM (PoolState.mk [] 2 true) 7 ReleaseCase.stop = some s2 →
      s2 = PoolState.mk [] 2 true ∨ s2.vmPool = [] ++ [7]) ∧
    ((PoolState.mk [] 2 true).vmPoolSize ≤
        (PoolState.mk [] 2 true).vmPool.length →
      ∀ s2, releaseVM (PoolState.mk [] 2 true) 7 ReleaseCase.stop = some s2 →
        s2 = PoolState.mk [] 2 true) :=
  release_after_shutdown_discard_guarantees
    (PoolState.mk [] 2 true) 7 ReleaseCase.stop rfl

/-- Model of a JavaScript value held by the otto interpreter (only the
structure the bindings and the rpc layer inspect). -/
inductive JSValue where
  | undefined
  | null
  | boolean (b : Bool)
  | number (n : Int)
  | str (s : String)
  | object (fields : List (String × JSValue))
  | func

/-- Which select case of the `execute` outcome race fires first, together
with the environment facts it depends on.  `completed` carries the result of
`value.Export()` (otto export can fail); `faulted` carries the script error
or recovered panic message sent on `errCh`; `deadlineFired` carries whether
the script goroutine had already terminated on its own when the
`execCtx.Done()` branch was taken (the interrupt is only honoured at the
next cooperative check of the interpreter, so the goroutine may well still
be inside `vm.Run`). -/
inductive Winner where
  | completed (exported : Except String JSValue)
  | faulted (msg : String)
  | deadlineFired (scriptStillRunning : Bool)

/-- Outcome of the `acquireVM` call made inside `execute`. -/
inductive AcquireOutcome where
  | ok
  | ctxCancelled
  | shuttingDown

/-- Environment of one `Plugin.execute` call: what the pool acquisition
returned and which branch of the outcome race fired first. -/
structure ExecEnv where
  acquire : AcquireOutcome
  winner : Winner

/-- Observable side effects of `Plugin.execute`, in program order.
`scriptTerminationObserved` marks a receive from `resultCh` or `errCh`
(the script goroutine sends on those channels only after `vm.Run` has
returned, so such a receive witnesses that the script task terminated). -/
inductive Event where
  | codeSizeObserved (n : Nat)
  | activeInc
  | activeDec
  | poolAvailDec
  | poolAvailInc
  | vmAcquired
  | scriptTerminationObserved
  | vmReleased
  | durationObserved (status : String)
  | executionsCounterInc (status : String)
deriving DecidableEq, Repr

/-- The value the deferred metrics closure reads from the `status` variable
of `Plugin.execute` on each return path: `error` on acquisition failure
(line 201), `success` on a received and exported result (line 257), `error`
on export failure (line 254) and on a received script error (line 261),
`timeout` when `execCtx.Done()` wins (line 265). -/
def finalStatus (env : ExecEnv) : String :=
  match env.acquire with
  | .ctxCancelled => "error"
  | .shuttingDown => "error"
  | .ok =>
    match env.winner with
    | .completed (.ok _) => "success"
    | .completed (.error _) => "error"
    | .faulted _ => "error"
    | .deadlineFired _ => "timeout"

/-- Event trace of one `Plugin.execute` call (plugin.go lines 178 to 268),
read off the source in program order, with the deferred calls appended in
last-in-first-out order at the return.  On the acquisition failure path the
release defer was never installed; on the `execCtx.Done()` path the select
returns without receiving from `resultCh` or `errCh`, so no termination of
the script task is observed before the deferred `releaseVM` runs. -/
def executeEvents (script : String) (env : ExecEnv) : List Event :=
  let pre : List Event := [.codeSizeObserved script.length, .activeInc, .poolAvailDec]
  match env.acquire with
  | .ctxCancelled =>
    pre ++ [.poolAvailInc, .activeDec,
      .durationObserved "error", .executionsCounterInc "error"]
  | .shuttingDown =>
    pre ++ [.poolAvailInc, .activeDec,
      .durationObserved "error", .executionsCounterInc "error"]
  | .ok =>
    let obs : List Event :=
      match env.winner with
      | .completed _ => [.scriptTerminationObserved]
      | .faulted _ => [.scriptTerminationObserved]
      | .deadlineFired _ => []
    pre ++ [.vmAcquired] ++ obs ++
      [.vmReleased, .poolAvailInc, .activeDec,
        .durationObserved (finalStatus env), .executionsCounterInc (finalStatus env)]

/-- Whether the deferred `releaseVM` of `Plugin.execute` runs while the
script task is still executing against the handle.  In the success, fault
and export branches the select received from `resultCh` or `errCh`, so
`vm.Run` has returned; in the `execCtx.Done()` branch the function returns
(and the defer releases the handle) without any synchronisation with the
script goroutine, so the release races the script whenever it has not yet
terminated by itself. -/
def releasedWhileTaskRunning (env : ExecEnv) : Bool :=
  match env.acquire, env.winner with
  | .ok, .deadlineFired stillRunning => stillRunning
  | _, _ => false

/-- The label of an `executionsTotal.WithLabelValues(status).Inc()` event. -/
def counterLabel : Event → Option String
  | .executionsCounterInc s => some s
  | _ => none

/-- Net change of the `poolAvailable` gauge over a trace. -/
def poolAvailDelta : List Event → Int
  | [] => 0
  | .poolAvailDec :: rest => poolAvailDelta rest - 1
  | .poolAvailInc :: rest => poolAvailDelta rest + 1
  | _ :: rest => poolAvailDelta rest

/-- The error value returned by `Plugin.execute`, `none` meaning a nil
error.  Message texts follow the `fmt.Errorf` format strings of the source
(the wrapped context and otto error texts are environment data). -/
def executeErrMsg (timeoutMs : Int) (env : ExecEnv) : Option String :=
  match env.acquire with
  | .ctxCancelled => some ("failed to acquire VM: " ++ "context canceled")
  | .shuttingDown => some ("failed to acquire VM: " ++ "plugin is shutting down")
  | .ok =>
    match env.winner with
    | .completed (.ok _) => none
    | .completed (.error m) => some ("failed to export result: " ++ m)
    | .faulted m => some ("execution error: " ++ m)
    | .deadlineFired _ =>
      some ("execution timeout after " ++ toString timeoutMs ++ "ms")

/-- The exported value returned by `Plugin.execute` (nil unless the result
branch won and the export succeeded). -/
def executeValue (env : ExecEnv) : Option JSValue :=
  match env.acquire, env.winner with
  | .ok, .completed (.ok v) => some v
  | _, _ => none

/-- Timeout determination of `rpc.Execute`: start from the configured
default and override it when the request carries a strictly positive
`timeout_ms`. -/
def determineTimeout (defaultMs reqTimeoutMs : Int) : Int :=
  if reqTimeoutMs > 0 then reqTimeoutMs else defaultMs

/-- `ExecuteRequest` of the rpc file. -/
structure ExecuteRequest where
  code : String
  timeoutMs : Int
  requestID : String

/-- `ExecuteResponse` of the rpc file; a fresh response starts zero-valued
(`result` nil, `durationMs` 0, empty strings). -/
structure ExecuteResponse where
  result : Option JSValue
  durationMs : Int
  error : String
  requestID : String

/-- What one `rpc.Execute` call produces: the filled-in response, the error
value returned by the rpc method itself (the call-level channel), and the
pool or metrics events of the underlying `Plugin.execute` call (empty when
`Plugin.execute` was never reached). -/
structure RpcOut where
  resp : ExecuteResponse
  rpcErr : Option String
  events : List Event

/-- Shallow embedding of `rpc.Execute`.  An empty `code` sets the error
field and returns the `code is required` error before anything else
happens; otherwise the timeout is determined, `Plugin.execute` runs
(its behaviour summarised by `env` and the wall-clock `elapsedMs`),
`durationMs` and `requestID` are filled in, and an execution error is
encoded in the response with the rpc method returning nil. -/
def Execute (defaultTimeoutMs : Int) (req : ExecuteRequest) (env : ExecEnv)
    (elapsedMs : Int) : RpcOut :=
  if req.code = "" then
    { resp := { result := none, durationMs := 0,
                error := "code is required", requestID := "" },
      rpcErr := some "code is required",
      events := [] }
  else
    let timeout := determineTimeout defaultTimeoutMs req.timeoutMs
    let base : ExecuteResponse :=
      { result := none, durationMs := elapsedMs, error := "",
        requestID := req.requestID }
    match executeErrMsg timeout env with
    | some m =>
      { resp := { base with error := m }, rpcErr := none,
        events := executeEvents req.code env }
    | none =>
      { resp := { base with result := executeValue env }, rpcErr := none,
        events := executeEvents req.code env }

theorem string_append_ne_empty (s t : String) (h : s ≠ "") : s ++ t ≠ "" := by
  intro hc
  apply h
  have hd := congrArg String.data hc
  rw [String.data_append] at hd
  have hs : s.data = [] := (List.append_eq_nil.mp hd).1
  cases s with
  | mk d => cases hs; rfl

theorem executeErrMsg_nonempty (t : Int) (env : ExecEnv)
    (h : finalStatus env ≠ "success") :
    ∃ m, executeErrMsg t env = some m ∧ m ≠ "" := by
  obtain ⟨acq, win⟩ := env
  cases acq with
  | ctxCancelled => exact ⟨_, rfl, string_append_ne_empty _ _ (by decide)⟩
  | shuttingDown => exact ⟨_, rfl, string_append_ne_empty _ _ (by decide)⟩
  | ok =>
    cases win with
    | completed e =>
      cases e with
      | ok v => exact absurd rfl h
      | error m => exact ⟨_, rfl, string_append_ne_empty _ _ (by decide)⟩
    | faulted m => exact ⟨_, rfl, string_append_ne_empty _ _ (by decide)⟩
    | deadlineFired b =>
      exact ⟨_, rfl,
        string_append_ne_empty _ _ (string_append_ne_empty _ _ (by decide))⟩

theorem executeErrMsg_none_of_success (t : Int) (env : ExecEnv)
    (h : finalStatus env = "success") : executeErrMsg t env = none := by
  obtain ⟨acq, win⟩ := env
  cases acq with
  | ctxCancelled => simp [finalStatus] at h
  | shuttingDown => simp [finalStatus] at h
  | ok =>
    cases win with
    | completed e =>
      cases e with
      | ok v => rfl
      | error m => simp [finalStatus] at h
    | faulted m => simp [finalStatus] at h
    | deadlineFired b => simp [finalStatus] at h

theorem Execute_eq_of_errMsg (defT el : Int) (req : ExecuteRequest) (env : ExecEnv)
    (m : String) (h : req.code ≠ "")
    (hm : executeErrMsg (determineTimeout defT req.timeoutMs) env = some m) :
    Execute defT req env el =
      { resp := { result := none, durationMs := el, error := m,
                  requestID := req.requestID },
        rpcErr := none, events := executeEvents req.code env } := by
  simp [Execute, h, hm]

theorem Execute_eq_of_noErr (defT el : Int) (req : ExecuteRequest) (env : ExecEnv)
    (h : req.code ≠ "")
    (hm : executeErrMsg (determineTimeout defT req.timeoutMs) env = none) :
    Execute defT req env el =
      { resp := { result := executeValue env, durationMs := el, error := "",
                  requestID := req.requestID },
        rpcErr := none, events := executeEvents req.code env } := by
  simp [Execute, h, hm]

/-- C1: code bug exhibit.  In the environment where the deadline branch of
the outcome race wins while the script goroutine is still running (a script
such as `while(true);` that has not yet honoured the interrupt), `execute`
releases the handle while the task is still running, and its event trace
contains the release but no observation of the script task terminating.
The claim (and spec section 4.2 and 9) requires release only after the task
has fully terminated. -/
theorem timeout_release_races_running_script :
    releasedWhileTaskRunning
      { acquire := AcquireOutcome.ok, winner := Winner.deadlineFired true } = true ∧
    Event.vmReleased ∈ executeEvents "while(true);"
      { acquire := AcquireOutcome.ok, winner := Winner.deadlineFired true } ∧
    Event.scriptTerminationObserved ∉ executeEvents "while(true);"
      { acquire := AcquireOutcome.ok, winner := Winner.deadlineFired true } := by
  refine ⟨rfl, ?_, ?_⟩ <;> simp [executeEvents, finalStatus]

/-- C4: a request with empty code produces a structured error response and
never interacts with the pool: the event trace of the call is empty, so no
handle is acquired or released and the pool-available gauge is unchanged. -/
theorem empty_code_no_pool_interaction (defT el : Int) (req : ExecuteRequest)
    (env : ExecEnv) (h : req.code = "") :
    (Execute defT req env el).events = [] ∧
    Event.vmAcquired ∉ (Execute defT req env el).events ∧
    Event.vmReleased ∉ (Execute defT req env el).events ∧
    poolAvailDelta (Execute defT req env el).events = 0 ∧
    (Execute defT req env el).resp.error = "code is required" := by
  simp [Execute, h, poolAvailDelta]

/-- C4 witness: the theorem evaluated at a concrete empty-code request. -/
theorem empty_code_no_pool_interaction_witness :
    (Execute 500 { code := "", timeoutMs := 0, requestID := "w" }
        { acquire := AcquireOutcome.ok, winner := Winner.faulted "f" } 0).events = [] ∧
    Event.vmAcquired ∉ (Execute 500 { code := "", timeoutMs := 0, requestID := "w" }
        { acquire := AcquireOutcome.ok, winner := Winner.faulted "f" } 0).events ∧
    Event.vmReleased ∉ (Execute 500 { code := "", timeoutMs := 0, requestID := "w" }
        { acquire := AcquireOutcome.ok, winner := Winner.faulted "f" } 0).events ∧
    poolAvailDelta (Execute 500 { code := "", timeoutMs := 0, requestID := "w" }
        { acquire := AcquireOutcome.ok, winner := Winner.faulted "f" } 0).events = 0 ∧
    (Execute 500 { code := "", timeoutMs := 0, requestID := "w" }
        { acquire := AcquireOutcome.ok, winner := Winner.faulted "f" } 0).resp.error =
      "code is required" :=
  empty_code_no_pool_interaction 500 0
    { code := "", timeoutMs := 0, requestID := "w" }
    { acquire := AcquireOutcome.ok, winner := Winner.faulted "f" } rfl

/-- C5 counterexample: a validation failure (empty code) makes the rpc
method itself return a non-nil error in addition to the structured response,
contradicting the claim that the Execute call does not return a call-level
failure for any non-success outcome. -/
theorem validation_failure_returns_call_level_error :
    (Execute 500 { code := "", timeoutMs := 0, requestID := "r1" }
        { acquire := AcquireOutcome.ok, winner := Winner.faulted "x" } 0).rpcErr =
      some "code is required" ∧
    (Execute 500 { code := "", timeoutMs := 0, requestID := "r1" }
        { acquire := AcquireOutcome.ok, winner := Winner.faulted "x" } 0).resp.error =
      "code is required" := by
  constructor
  · rfl
  · rfl

/-- C5 (amended): for every request that passes validation (non-empty code),
every non-success outcome (script fault, export failure, timeout,
acquisition failure) is surfaced as a non-empty error string in the
structured response and the rpc method itself returns nil; a success leaves
the error string empty.  A validation failure also sets the error string,
but additionally returns a call-level error (see the counterexample). -/
theorem nonvalidation_failures_structured_only (defT el : Int)
    (req : ExecuteRequest) (env : ExecEnv) (h : req.code ≠ "") :
    (Execute defT req env el).rpcErr = none ∧
    (finalStatus env ≠ "success" → (Execute defT req env el).resp.error ≠ "") ∧
    (finalStatus env = "success" → (Execute defT req env el).resp.error = "") := by
  refine ⟨?_, ?_, ?_⟩
  · cases hm : executeErrMsg (determineTimeout defT req.timeoutMs) env with
    | none => rw [Execute_eq_of_noErr defT el req env h hm]
    | some m => rw [Execute_eq_of_errMsg defT el req env m h hm]
  · intro hns
    obtain ⟨m, hm, hne⟩ :=
      executeErrMsg_nonempty (determineTimeout defT req.timeoutMs) env hns
    rw [Execute_eq_of_errMsg defT el req env m h hm]
    exact hne
  · intro hs
    rw [Execute_eq_of_noErr defT el req env h
      (executeErrMsg_none_of_success _ env hs)]

/-- C5 witness: the amended theorem evaluated at a concrete timed-out
request with non-empty code. -/
theorem nonvalidation_failures_structured_only_witness :
    (Execute 500 { code := "1+1", timeoutMs := 0, requestID := "r" }
        { acquire := AcquireOutcome.ok, winner := Winner.deadlineFired false } 3).rpcErr =
      none ∧
    (finalStatus { acquire := AcquireOutcome.ok, winner := Winner.deadlineFired false } ≠
        "success" →
      (Execute 500 { code := "1+1", timeoutMs := 0, requestID := "r" }
        { acquire := AcquireOutcome.ok, winner := Winner.deadlineFired false } 3).resp.error ≠
        "") ∧
    (finalStatus { acquire := AcquireOutcome.ok, winner := Winner.deadlineFired false } =
        "success" →
      (Execute 500 { code := "1+1", timeoutMs := 0, requestID := "r" }
        { acquire := AcquireOutcome.ok, winner := Winner.deadlineFired false } 3).resp.error =
        "") :=
  nonvalidation_failures_structured_only 500 3
    { code := "1+1", timeoutMs := 0, requestID := "r" }
    { acquire := AcquireOutcome.ok, winner := Winner.deadlineFired false } (by decide)

/-- C6 counterexample: on a validation failure the rpc method returns before
the line that copies the request id into the response, so the correlation
identifier is not echoed back. -/
theorem validation_failure_drops_request_id :
    ({ code := "", timeoutMs := 0, requestID := "abc" } : ExecuteRequest).requestID =
      "abc" ∧
    (Execute 500 { code := "", timeoutMs := 0, requestID := "abc" }
        { acquire := AcquireOutcome.ok, winner := Winner.faulted "boom" } 0).resp.requestID =
      "" := by
  constructor
  · rfl
  · rfl

/-- C6 (amended): for every request with non-empty code the request id is
echoed back in the response whatever the outcome (success, script error,
export failure, timeout, acquisition failure); on a validation failure the
response request id is left empty instead of echoed. -/
theorem request_id_echoed_when_code_nonempty (defT el : Int)
    (req : ExecuteRequest) (env : ExecEnv) (h : req.code ≠ "") :
    (Execute defT req env el).resp.requestID = req.requestID := by
  cases hm : executeErrMsg (determineTimeout defT req.timeoutMs) env with
  | none => rw [Execute_eq_of_noErr defT el req env h hm]
  | some m => rw [Execute_eq_of_errMsg defT el req env m h hm]

/-- C6 witness: the amended theorem evaluated at a concrete request. -/
theorem request_id_echoed_when_code_nonempty_witness :
    (Execute 500 { code := "2+2", timeoutMs := 0, requestID := "abc" }
        { acquire := AcquireOutcome.shuttingDown, winner := Winner.faulted "x" } 1).resp.requestID =
      ({ code := "2+2", timeoutMs := 0, requestID := "abc" } : ExecuteRequest).requestID :=
  request_id_echoed_when_code_nonempty 500 1
    { code := "2+2", timeoutMs := 0, requestID := "abc" }
    { acquire := AcquireOutcome.shuttingDown, winner := Winner.faulted "x" } (by decide)

/-- C7: a request with `timeout_ms` equal to zero runs under the configured
default timeout, a request with strictly positive `timeout_ms` runs under a
deadline of exactly that many milliseconds, and the deadline threaded into
the execution (visible in the timeout outcome message) is exactly the
determined one. -/
theorem timeout_selection_correct (defaultMs reqTimeoutMs : Int) :
    (reqTimeoutMs = 0 → determineTimeout defaultMs reqTimeoutMs = defaultMs) ∧
    (0 < reqTimeoutMs → determineTimeout defaultMs reqTimeoutMs = reqTimeoutMs) ∧
    (∀ (req : ExecuteRequest) (b : Bool) (el : Int), req.code ≠ "" →
      req.timeoutMs = reqTimeoutMs →
      (Execute defaultMs req
          { acquire := AcquireOutcome.ok, winner := Winner.deadlineFired b } el).resp.error =
        "execution timeout after " ++
          toString (determineTimeout defaultMs reqTimeoutMs) ++ "ms") := by
  refine ⟨?_, ?_, ?_⟩
  · intro h
    subst h
    simp [determineTimeout]
  · intro h
    simp [determineTimeout, h]
  · intro req b el h ht
    rw [Execute_eq_of_errMsg defaultMs el req
      { acquire := AcquireOutcome.ok, winner := Winner.deadlineFired b }
      ("execution timeout after " ++
        toString (determineTimeout defaultMs req.timeoutMs) ++ "ms") h rfl]
    rw [ht]

/-- C7 witness: the theorem evaluated at concrete timeouts. -/
theorem timeout_selection_correct_witness :
    determineTimeout 500 0 = 500 ∧
    determineTimeout 500 250 = 250 ∧
    (Execute 500 { code := "x", timeoutMs := 250, requestID := "id" }
        { acquire := AcquireOutcome.ok, winner := Winner.deadlineFired true } 9).resp.error =
      "execution timeout after " ++ toString (determineTimeout 500 250) ++ "ms" :=
  ⟨(timeout_selection_correct 500 0).1 rfl,
   (timeout_selection_correct 500 250).2.1 (by decide),
   (timeout_selection_correct 500 250).2.2
     { code := "x", timeoutMs := 250, requestID := "id" } true 9 (by decide) rfl⟩

/-- C8: on every return path of `execute` (acquisition failure, export
failure, script fault, success, timeout) the per-status executions counter
is incremented exactly once, labelled with the final status of the
execution, which is one of success, error, timeout. -/
theorem executions_counter_incremented_exactly_once (script : String) (env : ExecEnv) :
    (executeEvents script env).filterMap counterLabel = [finalStatus env] ∧
    (finalStatus env = "success" ∨ finalStatus env = "error" ∨
      finalStatus env = "timeout") := by
  obtain ⟨acq, win⟩ := env
  cases acq with
  | ctxCancelled => simp [executeEvents, finalStatus, counterLabel]
  | shuttingDown => simp [executeEvents, finalStatus, counterLabel]
  | ok =>
    cases win with
    | completed e => cases e <;> simp [executeEvents, finalStatus, counterLabel]
    | faulted m => simp [executeEvents, finalStatus, counterLabel]
    | deadlineFired b => simp [executeEvents, finalStatus, counterLabel]

/-- Kind of a user-defined prometheus collector vector (the help text of a
collector created by the bindings embeds its kind, so collectors of
different kinds never have identical descriptors). -/
inductive CollectorKind where
  | counter
  | gauge
  | histogram
deriving DecidableEq, Repr

/-- A registered prometheus collector vector: its kind, the label names it
was created with, and an identity. -/
structure Collector where
  kind : CollectorKind
  labelNames : List String
  id : Nat
deriving DecidableEq, Repr

/-- The process-wide prometheus default registry, keyed by metric name
(the `js_user` namespace prefix is fixed, so the bare name is the key).
`nextId` supplies identities for newly created collectors. -/
structure Registry where
  registered : List (String × Collector)
  nextId : Nat
deriving DecidableEq, Repr

/-- The per-interpreter `MetricsBinding` cache (`userCounters`). -/
structure MetricsBinding where
  userCounters : List (String × Collector)
deriving DecidableEq, Repr

/-- Lookup in an association list keyed by metric name. -/
def assocFind (l : List (String × Collector)) (name : String) : Option Collector :=
  match l with
  | [] => none
  | (k, c) :: rest => if k = name then some c else assocFind rest name

/-- Shallow embedding of `MetricsBinding.getOrCreateCounter`: return the
cached counter when present; otherwise create a counter vector with the
given label names and call `prometheus.Register`.  Register yields
`AlreadyRegisteredError` exactly when a collector with an identical
descriptor (same name, same help — hence same kind — and same label names)
is already registered, in which case the existing collector is cached and
returned; any other registration error (same name but different kind or
different label names) is logged and `nil` is returned. -/
def getOrCreateCounter (m : MetricsBinding) (r : Registry) (name : String)
    (labelNames : List String) : Option Collector × MetricsBinding × Registry :=
  match assocFind m.userCounters name with
  | some c => (some c, m, r)
  | none =>
    match assocFind r.registered name with
    | some existing =>
      if existing.kind = CollectorKind.counter ∧ existing.labelNames = labelNames then
        (some existing, ⟨(name, existing) :: m.userCounters⟩, r)
      else
        (none, m, r)
    | none =>
      let c : Collector := ⟨CollectorKind.counter, labelNames, r.nextId⟩
      (some c, ⟨(name, c) :: m.userCounters⟩,
        ⟨(name, c) :: r.registered, r.nextId + 1⟩)

/-- Invariant of every reachable binding cache: each cached counter is also
present in the process-wide registry under the same name, and is of counter
kind.  It holds for a fresh (empty) cache and is preserved by
`getOrCreateCounter`. -/
structure RegistryInv (m : MetricsBinding) (r : Registry) : Prop where
  consistent : ∀ n c, assocFind m.userCounters n = some c →
    assocFind r.registered n = some c
  counterKind : ∀ n c, assocFind m.userCounters n = some c →
    c.kind = CollectorKind.counter

theorem registryInv_empty (r : Registry) : RegistryInv ⟨[]⟩ r := by
  constructor <;> intro n c h <;> simp [assocFind] at h

theorem getOrCreateCounter_registered (m : MetricsBinding) (r : Registry)
    (name : String) (labelNames : List String) (c : Collector)
    (hinv : RegistryInv m r)
    (hc : (getOrCreateCounter m r name labelNames).1 = some c) :
    assocFind (getOrCreateCounter m r name labelNames).2.2.registered name = some c ∧
    c.kind = CollectorKind.counter := by
  cases hfm : assocFind m.userCounters name with
  | some c0 =>
    have he : getOrCreateCounter m r name labelNames = (some c0, m, r) := by
      unfold getOrCreateCounter
      rw [hfm]
    rw [he] at hc ⊢
    cases hc
    exact ⟨hinv.consistent name c hfm, hinv.counterKind name c hfm⟩
  | none =>
    cases hfr : assocFind r.registered name with
    | some ex =>
      by_cases hek : ex.kind = CollectorKind.counter ∧ ex.labelNames = labelNames
      · have he : getOrCreateCounter m r name labelNames =
            (some ex, ⟨(name, ex) :: m.userCounters⟩, r) := by
          simp only [getOrCreateCounter, hfm, hfr]
          rw [if_pos hek]
        rw [he] at hc ⊢
        cases hc
        exact ⟨hfr, hek.1⟩
      · have he : getOrCreateCounter m r name labelNames = (none, m, r) := by
          simp only [getOrCreateCounter, hfm, hfr]
          rw [if_neg hek]
        rw [he] at hc
        exact absurd hc (by simp)
    | none =>
      have he : getOrCreateCounter m r name labelNames =
          (some ⟨CollectorKind.counter, labelNames, r.nextId⟩,
            ⟨(name, ⟨CollectorKind.counter, labelNames, r.nextId⟩) :: m.userCounters⟩,
            ⟨(name, ⟨CollectorKind.counter, labelNames, r.nextId⟩) :: r.registered,
              r.nextId + 1⟩) := by
        simp only [getOrCreateCounter, hfm, hfr]
      rw [he] at hc ⊢
      cases hc
      exact ⟨by simp [assocFind], rfl⟩

/-- C9 counterexample: two interpreter instances with fresh caches sharing
the process-wide registry; the first registers the counter `m` with label
names `[x]`, the second attempts the same name with no labels.  The second
registration attempt fails (returns no collector) instead of being handed
the already-registered collector, because `prometheus.Register` reports an
inconsistent-descriptor error, not an `AlreadyRegisteredError`, when the
label names differ. -/
theorem second_registration_with_different_labels_fails :
    (getOrCreateCounter ⟨[]⟩ ⟨[], 0⟩ "m" ["x"]).1 =
      some ⟨CollectorKind.counter, ["x"], 0⟩ ∧
    (getOrCreateCounter ⟨[]⟩ (getOrCreateCounter ⟨[]⟩ ⟨[], 0⟩ "m" ["x"]).2.2
        "m" []).1 = none := by
  constructor
  · rfl
  · rfl

/-- C9 (amended): registration is get-or-create over the process-wide
registry with first-register-wins semantics for attempts with an identical
descriptor shape: whenever a call (from any interpreter instance whose
cache satisfies the reachable-state invariant) returns a counter for a
name, a later call with the same name and the same label names — from the
same or any other instance — returns that very collector instead of
failing.  An attempt with the same name but a different kind or different
label names fails (returns no collector); see the counterexample. -/
theorem same_name_registration_returns_existing_counter
    (m1 m2 : MetricsBinding) (r : Registry) (name : String)
    (l1 l2 : List String) (c : Collector)
    (h1 : RegistryInv m1 r)
    (hc : (getOrCreateCounter m1 r name l1).1 = some c)
    (h2 : RegistryInv m2 (getOrCreateCounter m1 r name l1).2.2)
    (hl : l2 = c.labelNames) :
    (getOrCreateCounter m2 (getOrCreateCounter m1 r name l1).2.2 name l2).1 =
      some c := by
  obtain ⟨hreg, hkind⟩ :=
    getOrCreateCounter_registered m1 r name l1 c h1 hc
  set r2 := (getOrCreateCounter m1 r name l1).2.2 with hr2
  cases hfm2 : assocFind m2.userCounters name with
  | some c2 =>
    have hc2 : assocFind r2.registered name = some c2 :=
      h2.consistent name c2 hfm2
    rw [hreg] at hc2
    cases hc2
    have he : getOrCreateCounter m2 r2 name l2 = (some c, m2, r2) := by
      simp only [getOrCreateCounter, hfm2]
    rw [he]
  | none =>
    have he : getOrCreateCounter m2 r2 name l2 =
        (some c, ⟨(name, c) :: m2.userCounters⟩, r2) := by
      simp only [getOrCreateCounter, hfm2, hreg]
      rw [if_pos ⟨hkind, hl.symm⟩]
    rw [he]

/-- C9 witness: the amended theorem evaluated at two concrete fresh
interpreter instances sharing an initially empty registry. -/
theorem same_name_registration_returns_existing_counter_witness :
    (getOrCreateCounter ⟨[]⟩ (getOrCreateCounter ⟨[]⟩ ⟨[], 0⟩ "hits" ["route"]).2.2
        "hits" ["route"]).1 = some ⟨CollectorKind.counter, ["route"], 0⟩ :=
  same_name_registration_returns_existing_counter ⟨[]⟩ ⟨[]⟩ ⟨[], 0⟩ "hits"
    ["route"] ["route"] ⟨CollectorKind.counter, ["route"], 0⟩
    (registryInv_empty ⟨[], 0⟩) rfl
    (registryInv_empty (getOrCreateCounter ⟨[]⟩ ⟨[], 0⟩ "hits" ["route"]).2.2) rfl

/-- Model of the otto string conversion `Value.String()`, which is total
(it never raises; objects and functions convert to a printable form). -/
def jsToString : JSValue → String
  | .undefined => "undefined"
  | .null => "null"
  | .boolean true => "true"
  | .boolean false => "false"
  | .number n => toString n
  | .str s => s
  | .object _ => "[object Object]"
  | .func => "function"

/-- Model of the otto `Value.IsObject()` test: objects and functions are
objects, primitives are not. -/
def JSValue.isObject : JSValue → Bool
  | .object _ => true
  | .func => true
  | _ => false

/-- Model of the otto `Value.Export()` conversion used on each field value.
In otto v0.4.0 (the version pinned by go.mod) `Export` always returns a nil
error — a callable goes through the object-enumeration branch and exports
as an empty map — so the conversion is total and the result is never
`none`; the `Option` shape is kept only because the calling code in
`getFields` checks the returned error. -/
def exportJS : JSValue → Option JSValue
  | .func => some (.object [])
  | v => some v

/-- Model of `call.Argument(i)`: out-of-range arguments are undefined. -/
def jsArgument (args : List JSValue) (i : Nat) : JSValue :=
  args.getD i JSValue.undefined

/-- Shallow embedding of `LogBinding.getMessage`: the empty string when the
call has no arguments, otherwise the string conversion of the first one. -/
def getMessage (args : List JSValue) : String :=
  if args.length = 0 then "" else jsToString (jsArgument args 0)

/-- Shallow embedding of `LogBinding.getFields`: no fields when there is no
second argument or it is not an object; otherwise each key of the object is
exported, keys whose export fails being skipped (a path that never fires in
this otto version, since `exportJS` is total). -/
def getFields (args : List JSValue) : List (String × JSValue) :=
  if args.length < 2 then []
  else
    let fieldsValue := jsArgument args 1
    if fieldsValue.isObject = false then []
    else
      match fieldsValue with
      | .object fields =>
        fields.filterMap (fun kv => (exportJS kv.2).map (fun g => (kv.1, g)))
      | _ => []

/-- The structured record a log level handler passes to the host logger. -/
structure LogRecord where
  level : String
  message : String
  fields : List (String × JSValue)

/-- Shallow embedding of the four log level handlers
(`LogBinding.info` / `error` / `warn` / `debug`): each extracts the message
and the fields and returns the JavaScript undefined value.  Being a total
function, it returns normally — never a thrown exception — on every
argument list. -/
def logCall (level : String) (args : List JSValue) : LogRecord × JSValue :=
  ({ level := level, message := getMessage args, fields := getFields args },
    JSValue.undefined)

/-- C10: the log binding never throws on malformed input: every call
returns the undefined value; a call with no arguments logs the empty string
as the message; a missing or non-object second argument yields no fields;
and no field value is unexportable (`Export` always succeeds in this otto
version), so the skip path for failed exports never fires and the clause
that unexportable fields are treated as no fields holds vacuously. -/
theorem log_binding_tolerates_malformed_input :
    (∀ level args, (logCall level args).2 = JSValue.undefined) ∧
    getMessage [] = "" ∧
    (∀ level, (logCall level []).1.message = "") ∧
    (∀ args, args.length < 2 → getFields args = []) ∧
    (∀ m v, v.isObject = false → getFields [m, v] = []) ∧
    (∀ v, exportJS v ≠ none) := by
  refine ⟨fun _ _ => rfl, rfl, fun _ => rfl, ?_, ?_, ?_⟩
  · intro args h
    simp [getFields, h]
  · intro m v h
    simp [getFields, jsArgument, h]
  · intro v
    cases v <;> simp [exportJS]

/-- C10 witness: the theorem evaluated at concrete malformed calls. -/
theorem log_binding_tolerates_malformed_input_witness :
    (logCall "info" []).2 = JSValue.undefined ∧
    (logCall "warn" []).1.message = "" ∧
    getFields [JSValue.str "msg"] = [] ∧
    getFields [JSValue.str "msg", JSValue.number 3] = [] ∧
    exportJS JSValue.func ≠ none :=
  ⟨log_binding_tolerates_malformed_input.1 "info" [],
   log_binding_tolerates_malformed_input.2.2.1 "warn",
   log_binding_tolerates_malformed_input.2.2.2.1 [JSValue.str "msg"] (by decide),
   log_binding_tolerates_malformed_input.2.2.2.2.1 (JSValue.str "msg")
     (JSValue.number 3) rfl,
   log_binding_tolerates_malformed_input.2.2.2.2.2 JSValue.func⟩

end JsMachine
